import Mathlib

/-!
Verification development for the rule-based Isaac decision engine
(`agent/src/rules_engine.py`, `agent/src/state_reader.py`,
`agent/src/action_writer.py`, `agent/config.py`).

The engine is a pure function of one snapshot plus a fixed configuration.
We embed the snapshot data model and the four sub-components
(threat assessor / contact avoider / target selector & aimer /
approach planner) together with the priority arbiter, over the reals.
Python float guards of the form `sqrt e < c` are embedded with
`Real.sqrt`, keeping the exact guard structure of the source.
-/

open scoped Classical

namespace IsaacAgent

/-- Embeds `PlayerState` from `state_reader.py`. -/
structure PlayerState where
  x : ℝ
  y : ℝ
  vx : ℝ := 0
  vy : ℝ := 0
  hp : ℤ := 0
  max_hp : ℤ := 0
  bombs : ℤ := 0
  keys : ℤ := 0
  coins : ℤ := 0
  charge : ℤ := 0
  has_flight : Bool := false

/-- Embeds `EnemyState` from `state_reader.py`. -/
structure EnemyState where
  x : ℝ
  y : ℝ
  vx : ℝ := 0
  vy : ℝ := 0
  hp : ℝ := 0
  max_hp : ℝ := 0
  type_id : ℤ := 0
  variant : ℤ := 0
  subtype : ℤ := 0
  distance : ℝ := 0

/-- Embeds `ProjectileState` from `state_reader.py`. -/
structure ProjectileState where
  x : ℝ
  y : ℝ
  vx : ℝ := 0
  vy : ℝ := 0
  distance : ℝ := 0
  is_hostile : Bool := true

/-- Embeds `PickupState` from `state_reader.py` (unused by the engine). -/
structure PickupState where
  x : ℝ
  y : ℝ
  variant : ℤ := 0
  subtype : ℤ := 0
  distance : ℝ := 0

/-- Embeds `RoomState` from `state_reader.py` (unused by the engine). -/
structure RoomState where
  type_id : ℤ := 0
  shape : ℤ := 0
  stage : ℤ := 0
  stage_type : ℤ := 0
  is_clear : Bool := false
  room_index : ℤ := 0
  grid_width : ℤ := 0
  grid_height : ℤ := 0

/-- Embeds `GameState` from `state_reader.py`. -/
structure GameState where
  frame : ℤ := 0
  timestamp : ℤ := 0
  player : Option PlayerState := none
  enemies : List EnemyState := []
  projectiles : List ProjectileState := []
  pickups : List PickupState := []
  room : Option RoomState := none
  game_seed : ℤ := 0
  difficulty : ℤ := 0
  challenge : ℤ := 0

/-- Embeds the rule-based parameters of `Config` in `config.py`. -/
structure Config where
  DODGE_DISTANCE : ℝ := 100
  AVOID_DISTANCE : ℝ := 50
  ATTACK_RANGE : ℝ := 300
  APPROACH_RANGE : ℝ := 400

/-- The default configuration object (`Config()` in `config.py`). -/
def defaultConfig : Config := {}

/-- Embeds `Action` from `action_writer.py`: four ternary axis components. -/
structure Action where
  move_x : ℤ := 0
  move_y : ℤ := 0
  shoot_x : ℤ := 0
  shoot_y : ℤ := 0

/-- Embeds the clamping of one axis in `Action.__post_init__`:
`max(-1, min(1, int(v)))`. -/
def clampAxis (v : ℤ) : ℤ := max (-1) (min 1 v)

/-- Constructing an `Action(...)` in Python runs `__post_init__`, which
clamps every component; `Action.make` embeds that constructor. -/
def Action.make (mx my sx sy : ℤ) : Action :=
  ⟨clampAxis mx, clampAxis my, clampAxis sx, clampAxis sy⟩

/-- The shared discretization step appearing verbatim in
`_dodge_projectiles` (lines 159-164), `_avoid_enemies` (201-204),
`_attack_nearest` (242-245) and `_approach_enemies` (273-276):
`if abs(x) > abs(y): (sign-select on x, 0) else (0, sign-select on y)`. -/
noncomputable def quantize (x y : ℝ) : ℤ × ℤ :=
  if |x| > |y| then (if x > 0 then 1 else -1, 0)
  else (0, if y > 0 then 1 else -1)

/-- Projectile speed `math.sqrt(proj.vx**2 + proj.vy**2)`
(`rules_engine.py` line 92). -/
noncomputable def projSpeed (p : ProjectileState) : ℝ :=
  Real.sqrt (p.vx ^ 2 + p.vy ^ 2)

/-- Length of the vector from projectile to player
(`rules_engine.py` lines 97-101). -/
noncomputable def dirLen (player : PlayerState) (p : ProjectileState) : ℝ :=
  Real.sqrt ((player.x - p.x) ^ 2 + (player.y - p.y) ^ 2)

/-- Dot product of the unit projectile-to-player direction with the
projectile velocity (`rules_engine.py` lines 105-109). -/
noncomputable def approachDot (player : PlayerState) (p : ProjectileState) : ℝ :=
  ((player.x - p.x) / dirLen player p) * p.vx +
    ((player.y - p.y) / dirLen player p) * p.vy

/-- The hostility-and-distance filter of `_dodge_projectiles`
(lines 82-89): a projectile is kept unless it is non-hostile, or
`dist > dodge_distance or dist < 1` holds. -/
def hostDistFilter (cfg : Config) (p : ProjectileState) : Prop :=
  p.is_hostile = true ∧ ¬ (p.distance > cfg.DODGE_DISTANCE ∨ p.distance < 1)

/-- A projectile survives every `continue` guard of the scan loop in
`_dodge_projectiles` (lines 82-112): the hostility-and-distance filter,
the speed guard, the degenerate-direction guard, and the approach guard. -/
noncomputable def dodgeSurvives (cfg : Config) (player : PlayerState)
    (p : ProjectileState) : Prop :=
  hostDistFilter cfg p ∧ ¬ (projSpeed p < 0.1) ∧
    ¬ (dirLen player p < 0.1) ∧ 0 < approachDot player p

/-- Threat score `time_to_impact * (1.0 - dot * 0.5)` with
`time_to_impact = dist / speed` (`rules_engine.py` lines 115-118). -/
noncomputable def threatScore (player : PlayerState) (p : ProjectileState) : ℝ :=
  (p.distance / projSpeed p) * (1 - approachDot player p * 0.5)

/-- One iteration of the most-dangerous-projectile loop in
`_dodge_projectiles` (lines 82-122): skip a non-surviving projectile,
otherwise keep the strictly smaller threat score. -/
noncomputable def scanStep (cfg : Config) (player : PlayerState)
    (acc : Option (ProjectileState × ℝ)) (p : ProjectileState) :
    Option (ProjectileState × ℝ) :=
  if dodgeSurvives cfg player p then
    match acc with
    | none => some (p, threatScore player p)
    | some (q, best) =>
        if threatScore player p < best then some (p, threatScore player p)
        else some (q, best)
  else acc

/-- The full scan loop: starts with no candidate (`min_threat_score = inf`)
and folds `scanStep` over the projectile list in order. -/
noncomputable def scanThreats (cfg : Config) (player : PlayerState)
    (projs : List ProjectileState) : Option (ProjectileState × ℝ) :=
  projs.foldl (scanStep cfg player) none

/-- Embeds `RulesEngine._dodge_projectiles` (lines 72-164). -/
noncomputable def dodgeProjectiles (cfg : Config) (player : PlayerState) :
    List ProjectileState → Option Action
  | [] => none
  | p :: rest =>
    match scanThreats cfg player (p :: rest) with
    | none => none
    | some (md, best) =>
      if 2 < best then none
      else
        let velLen := Real.sqrt (md.vx ^ 2 + md.vy ^ 2)
        if velLen < 0.1 then none
        else
          let vxn := md.vx / velLen
          let vyn := md.vy / velLen
          let dxp := md.x - player.x
          let dyp := md.y - player.y
          let dot1 := -vyn * dxp + vxn * dyp
          let dot2 := vyn * dxp + -vxn * dyp
          let d := if dot1 < dot2 then (-vyn, vxn) else (vyn, -vxn)
          let q := quantize d.1 d.2
          some (Action.make q.1 q.2 0 0)

/-- The filtered list `[e for e in enemies if e.distance < avoid_distance
and e.distance > 0]` of `_avoid_enemies` (line 173). -/
noncomputable def closeEnemies (cfg : Config) : List EnemyState → List EnemyState
  | [] => []
  | e :: rest =>
    if e.distance < cfg.AVOID_DISTANCE ∧ e.distance > 0 then
      e :: closeEnemies cfg rest
    else closeEnemies cfg rest

/-- The accumulation loop of `_avoid_enemies` (lines 179-190): the sum of
enemy-to-player vectors weighted by `1 / max(distance, 1.0)`. -/
noncomputable def avoidVector (player : PlayerState)
    (es : List EnemyState) : ℝ × ℝ :=
  es.foldl
    (fun acc e =>
      (acc.1 + (player.x - e.x) * (1 / max e.distance 1),
       acc.2 + (player.y - e.y) * (1 / max e.distance 1)))
    (0, 0)

/-- Embeds `RulesEngine._avoid_enemies` (lines 166-204). -/
noncomputable def avoidEnemies (cfg : Config) (player : PlayerState) :
    List EnemyState → Option Action
  | [] => none
  | e :: rest =>
    match closeEnemies cfg (e :: rest) with
    | [] => none
    | c :: cs =>
      let v := avoidVector player (c :: cs)
      let len := Real.sqrt (v.1 ^ 2 + v.2 ^ 2)
      if len < 0.1 then none
      else
        let q := quantize (v.1 / len) (v.2 / len)
        some (Action.make q.1 q.2 0 0)

/-- The selection loop of `_attack_nearest` (lines 213-217): first enemy
in list order with `distance <= attack_range`, then `break`. -/
noncomputable def selectTarget (cfg : Config) : List EnemyState → Option EnemyState
  | [] => none
  | e :: rest =>
    if e.distance ≤ cfg.ATTACK_RANGE then some e else selectTarget cfg rest

/-- The raw aim vector of `_attack_nearest` (lines 223-231): target minus
player, plus `velocity * (distance / 200.0)` when either velocity
component exceeds 0.1 in magnitude. -/
noncomputable def aimVector (player : PlayerState) (t : EnemyState) : ℝ × ℝ :=
  let dx := t.x - player.x
  let dy := t.y - player.y
  if 0.1 < |t.vx| ∨ 0.1 < |t.vy| then
    (dx + t.vx * (t.distance / 200), dy + t.vy * (t.distance / 200))
  else (dx, dy)

/-- Embeds `RulesEngine._attack_nearest` (lines 206-245). -/
noncomputable def attackNearest (cfg : Config) (player : PlayerState) :
    List EnemyState → Option Action
  | [] => none
  | e :: rest =>
    match selectTarget cfg (e :: rest) with
    | none => none
    | some t =>
      let a := aimVector player t
      let len := Real.sqrt (a.1 ^ 2 + a.2 ^ 2)
      if len < 0.1 then none
      else
        let q := quantize (a.1 / len) (a.2 / len)
        some (Action.make 0 0 q.1 q.2)

/-- Embeds `RulesEngine._approach_enemies` (lines 247-276). -/
noncomputable def approachEnemies (cfg : Config) (player : PlayerState) :
    List EnemyState → Option Action
  | [] => none
  | nearest :: _ =>
    if nearest.distance < cfg.ATTACK_RANGE ∨ cfg.APPROACH_RANGE < nearest.distance
    then none
    else
      let dx := nearest.x - player.x
      let dy := nearest.y - player.y
      let len := Real.sqrt (dx ^ 2 + dy ^ 2)
      if len < 0.1 then none
      else
        let q := quantize (dx / len) (dy / len)
        some (Action.make q.1 q.2 0 0)

/-- Embeds `RulesEngine.decide_action` (lines 26-70), including the
`if not state or not state.player` no-op guard; the absent snapshot is
the `none` case of the option. -/
noncomputable def decideAction (cfg : Config) (state : Option GameState) : Action :=
  match state with
  | none => Action.make 0 0 0 0
  | some s =>
    match s.player with
    | none => Action.make 0 0 0 0
    | some player =>
      match dodgeProjectiles cfg player s.projectiles with
      | some dodge =>
        let atk := attackNearest cfg player s.enemies
        Action.make dodge.move_x dodge.move_y
          (match atk with | some a => a.shoot_x | none => 0)
          (match atk with | some a => a.shoot_y | none => 0)
      | none =>
        let avoid := avoidEnemies cfg player s.enemies
        let atk := attackNearest cfg player s.enemies
        match avoid with
        | some av =>
          Action.make av.move_x av.move_y
            (match atk with | some a => a.shoot_x | none => 0)
            (match atk with | some a => a.shoot_y | none => 0)
        | none =>
          match approachEnemies cfg player s.enemies with
          | some ap =>
            Action.make ap.move_x ap.move_y
              (match atk with | some a => a.shoot_x | none => 0)
              (match atk with | some a => a.shoot_y | none => 0)
          | none =>
            match atk with
            | some a => a
            | none => Action.make 0 0 0 0

/-! ## Helper lemmas -/

/-- Square root of an explicit perfect square. -/
lemma sqrt_eq_of_sq {a b : ℝ} (hb : 0 ≤ b) (h : b * b = a) : Real.sqrt a = b := by
  rw [← h]; exact Real.sqrt_mul_self hb

/-- Clamping is the identity on the ternary range. -/
lemma clampAxis_eq_self {v : ℤ} (h1 : -1 ≤ v) (h2 : v ≤ 1) : clampAxis v = v := by
  unfold clampAxis; omega

/-- Clamping always lands in the ternary range. -/
lemma clampAxis_cases (v : ℤ) :
    clampAxis v = -1 ∨ clampAxis v = 0 ∨ clampAxis v = 1 := by
  unfold clampAxis; omega

/-- Clamping commutes with negation. -/
lemma clampAxis_neg (v : ℤ) : clampAxis (-v) = -clampAxis v := by
  unfold clampAxis; omega

/-- When the x-magnitude is not strictly larger, the quantizer takes the
else-branch: a pure Y output. -/
lemma quantize_of_not_gt {x y : ℝ} (h : ¬ |x| > |y|) :
    quantize x y = (0, if y > 0 then 1 else -1) := by
  unfold quantize; rw [if_neg h]

/-- When the x-magnitude is strictly larger, the quantizer emits a pure X
output. -/
lemma quantize_of_gt {x y : ℝ} (h : |x| > |y|) :
    quantize x y = (if x > 0 then 1 else -1, 0) := by
  unfold quantize; rw [if_pos h]

/-- The quantizer output is always on a single axis. -/
lemma quantize_shape (x y : ℝ) :
    (∃ v, (v = 1 ∨ v = -1) ∧ quantize x y = (v, 0)) ∨
    (∃ v, (v = 1 ∨ v = -1) ∧ quantize x y = (0, v)) := by
  unfold quantize
  by_cases h : |x| > |y|
  · rw [if_pos h]
    exact Or.inl ⟨if x > 0 then 1 else -1, by split <;> simp, rfl⟩
  · rw [if_neg h]
    exact Or.inr ⟨if y > 0 then 1 else -1, by split <;> simp, rfl⟩

/-- Negating the first coordinate negates the quantizer's x-output and
keeps its y-output. -/
lemma quantize_neg_x (x y : ℝ) :
    quantize (-x) y = (-(quantize x y).1, (quantize x y).2) := by
  unfold quantize
  rw [abs_neg]
  by_cases h : |x| > |y|
  · rw [if_pos h, if_pos h]
    rcases lt_trichotomy x 0 with hx | hx | hx
    · rw [if_pos (by linarith : -x > 0), if_neg (by linarith : ¬ x > 0)]
      norm_num
    · exfalso
      rw [hx, abs_zero] at h
      linarith [abs_nonneg y]
    · rw [if_neg (by linarith : ¬ -x > 0), if_pos hx]
  · rw [if_neg h, if_neg h]
    norm_num

/-! ## Concrete inputs used by counterexamples and witnesses -/

/-- A player standing at the origin. -/
def pl0 : PlayerState := { x := 0, y := 0 }

/-- An enemy in the exact diagonal direction (30, 30) from the origin,
standing still, with the consistent precomputed distance. -/
noncomputable def enemyTie : EnemyState :=
  { x := 30, y := 30, distance := Real.sqrt 1800 }

/-- A hostile projectile at distance 10 straight left of the origin,
flying with velocity (100, 0) directly at the player. -/
def projHead : ProjectileState :=
  { x := -10, y := 0, vx := 100, vy := 0, distance := 10, is_hostile := true }

/-! ## C1 -/

/-- C1 (counterexample): the claim says an exact tie in magnitudes
quantizes to a pure X output of sign x. For the aimer with target
`enemyTie` the pre-quantization aim vector is (30, 30), a tie with
positive x, yet the emitted aim is the pure Y vector (0, 1), not the
pure X vector (1, 0) the claim predicts. -/
theorem C1_counterexample :
    aimVector pl0 enemyTie = (30, 30) ∧
    attackNearest defaultConfig pl0 [enemyTie] = some (Action.mk 0 0 0 1) ∧
    attackNearest defaultConfig pl0 [enemyTie] ≠ some (Action.mk 0 0 1 0) := by
  have hsqrt_pos : (0:ℝ) < Real.sqrt 1800 := Real.sqrt_pos.mpr (by norm_num)
  have hsqrt_ge : (1:ℝ) ≤ Real.sqrt 1800 := by
    have h0 : Real.sqrt 1 ≤ Real.sqrt 1800 := Real.sqrt_le_sqrt (by norm_num)
    rw [Real.sqrt_one] at h0
    exact h0
  have hsqrt_le : Real.sqrt 1800 ≤ 300 := by
    have h1 : Real.sqrt 1800 ≤ Real.sqrt 90000 := Real.sqrt_le_sqrt (by norm_num)
    have h2 : Real.sqrt 90000 = 300 := sqrt_eq_of_sq (by norm_num) (by norm_num)
    linarith
  have haim : aimVector pl0 enemyTie = (30, 30) := by
    unfold aimVector enemyTie pl0
    norm_num
  have hsel : selectTarget defaultConfig [enemyTie] = some enemyTie := by
    simp only [selectTarget]
    rw [if_pos]
    show enemyTie.distance ≤ (defaultConfig).ATTACK_RANGE
    simp only [enemyTie, defaultConfig]
    exact hsqrt_le
  have hmain : attackNearest defaultConfig pl0 [enemyTie] = some (Action.mk 0 0 0 1) := by
    have hlen : Real.sqrt ((30:ℝ) ^ 2 + (30:ℝ) ^ 2) = Real.sqrt 1800 := by norm_num
    simp only [attackNearest, hsel, haim, hlen]
    rw [if_neg (by intro h; linarith)]
    have hq : quantize (30 / Real.sqrt 1800) (30 / Real.sqrt 1800) = (0, 1) := by
      rw [quantize_of_not_gt (by simp)]
      rw [if_pos (by positivity)]
    rw [hq]
    simp [Action.make, clampAxis]
  refine ⟨haim, hmain, ?_⟩
  rw [hmain]
  simp

/-- C1 (amended): in the shared dominant-axis quantization of the dodge,
avoid, aim and approach sub-components, an exact tie in magnitudes
resolves toward the Y axis: the output is the pure Y vector whose sign is
taken from y (x wins only when its magnitude is strictly greater). -/
theorem C1_tie_resolves_to_y (x y : ℝ) (h : |x| = |y|) :
    (quantize x y).1 = 0 ∧ (quantize x y).2 = (if y > 0 then 1 else -1) := by
  rw [quantize_of_not_gt (by rw [h]; exact lt_irrefl _)]
  exact ⟨rfl, rfl⟩

/-- C1 (witness): the amended theorem applied at the concrete tie (1, 1). -/
theorem C1_tie_witness :
    |(1:ℝ)| = |(1:ℝ)| ∧
    (quantize 1 1).1 = 0 ∧ (quantize 1 1).2 = (if (1:ℝ) > 0 then 1 else -1) :=
  ⟨rfl, C1_tie_resolves_to_y 1 1 rfl⟩

/-! ## C3 -/

/-- C3 (counterexample): a hostile projectile at distance 1/2 satisfies
the claim's filter `hostile and 0 < d <= dodge_radius` but fails the
code's filter, which requires `d >= 1`. -/
theorem C3_counterexample :
    ¬ (hostDistFilter defaultConfig
        { x := 0.5, y := 0, distance := 0.5, is_hostile := true } ↔
       (({ x := 0.5, y := 0, distance := 0.5, is_hostile := true } :
          ProjectileState).is_hostile = true ∧
        0 < ({ x := 0.5, y := 0, distance := 0.5, is_hostile := true } :
          ProjectileState).distance ∧
        ({ x := 0.5, y := 0, distance := 0.5, is_hostile := true } :
          ProjectileState).distance ≤ defaultConfig.DODGE_DISTANCE)) := by
  unfold hostDistFilter defaultConfig
  norm_num

/-- C3 (amended): a projectile passes the hostility-and-distance filter of
the threat assessor iff it is hostile and its distance d satisfies
`1 <= d <= dodge_radius`; in particular a non-hostile projectile never
passes, and a hostile projectile at exactly `dodge_radius` passes. -/
theorem C3_filter_iff (cfg : Config) (p : ProjectileState) :
    hostDistFilter cfg p ↔
      (p.is_hostile = true ∧ 1 ≤ p.distance ∧ p.distance ≤ cfg.DODGE_DISTANCE) := by
  unfold hostDistFilter
  constructor
  · rintro ⟨hh, hd⟩
    push_neg at hd
    exact ⟨hh, hd.2, hd.1⟩
  · rintro ⟨hh, h1, h2⟩
    exact ⟨hh, by push_neg; exact ⟨h2, h1⟩⟩

/-! ## C7 -/

/-- C7: for a snapshot without a player, and for an entirely absent
snapshot, the arbiter returns the zero decision regardless of the enemy
and projectile content. -/
theorem C7_no_player (cfg : Config) :
    decideAction cfg none = Action.make 0 0 0 0 ∧
    ∀ s : GameState, s.player = none →
      decideAction cfg (some s) = Action.make 0 0 0 0 := by
  refine ⟨rfl, ?_⟩
  intro s hs
  simp only [decideAction, hs]

/-- A snapshot with no player but with an enemy and a projectile. -/
def noPlayerState : GameState :=
  { player := none,
    enemies := [{ x := 5, y := 5, distance := 5 }],
    projectiles := [{ x := 1, y := 0, vx := 50, vy := 0, distance := 1 }] }

/-- C7 (witness): the no-player contract applied to a concrete snapshot
that does contain an enemy and a projectile. -/
theorem C7_no_player_witness :
    noPlayerState.player = none ∧
    decideAction defaultConfig (some noPlayerState) = Action.make 0 0 0 0 :=
  ⟨rfl, (C7_no_player defaultConfig).2 noPlayerState rfl⟩

/-! ## Shape lemmas for the sub-components -/

/-- One coordinate of the quantizer output is always zero. -/
lemma quantize_axis (x y : ℝ) : (quantize x y).1 = 0 ∨ (quantize x y).2 = 0 := by
  unfold quantize
  split
  · exact Or.inr rfl
  · exact Or.inl rfl

/-- The quantizer always emits a nonzero coordinate on the chosen axis. -/
lemma quantize_some_nonzero (x y : ℝ) :
    (quantize x y).1 ≠ 0 ∨ (quantize x y).2 ≠ 0 := by
  unfold quantize
  split
  · left; split <;> simp
  · right; split <;> simp

/-- A successful dodge is a clamped pure movement built from the
quantizer, with zero aim. -/
lemma dodge_shape {cfg : Config} {pl : PlayerState} {projs : List ProjectileState}
    {a : Action} (h : dodgeProjectiles cfg pl projs = some a) :
    ∃ x y, a = Action.make (quantize x y).1 (quantize x y).2 0 0 := by
  cases projs with
  | nil =>
    simp only [dodgeProjectiles] at h
    exact Option.noConfusion h
  | cons p rest =>
    simp only [dodgeProjectiles] at h
    rcases hscan : scanThreats cfg pl (p :: rest) with _ | ⟨md, best⟩
    · rw [hscan] at h
      exact Option.noConfusion h
    · rw [hscan] at h
      simp only [] at h
      split at h
      · exact Option.noConfusion h
      · split at h
        · exact Option.noConfusion h
        · injection h with h2
          exact ⟨_, _, h2.symm⟩

/-- A successful avoidance is a clamped pure movement built from the
quantizer, with zero aim. -/
lemma avoid_shape {cfg : Config} {pl : PlayerState} {es : List EnemyState}
    {a : Action} (h : avoidEnemies cfg pl es = some a) :
    ∃ x y, a = Action.make (quantize x y).1 (quantize x y).2 0 0 := by
  cases es with
  | nil =>
    simp only [avoidEnemies] at h
    exact Option.noConfusion h
  | cons e rest =>
    simp only [avoidEnemies] at h
    rcases hclose : closeEnemies cfg (e :: rest) with _ | ⟨c, cs⟩
    · rw [hclose] at h
      exact Option.noConfusion h
    · rw [hclose] at h
      simp only [] at h
      split at h
      · exact Option.noConfusion h
      · injection h with h2
        exact ⟨_, _, h2.symm⟩

/-- A successful approach is a clamped pure movement built from the
quantizer, with zero aim. -/
lemma approach_shape {cfg : Config} {pl : PlayerState} {es : List EnemyState}
    {a : Action} (h : approachEnemies cfg pl es = some a) :
    ∃ x y, a = Action.make (quantize x y).1 (quantize x y).2 0 0 := by
  cases es with
  | nil =>
    simp only [approachEnemies] at h
    exact Option.noConfusion h
  | cons e rest =>
    simp only [approachEnemies] at h
    split at h
    · exact Option.noConfusion h
    · split at h
      · exact Option.noConfusion h
      · injection h with h2
        exact ⟨_, _, h2.symm⟩

/-- A successful attack is a clamped pure aim built from the quantizer,
with zero movement. -/
lemma attack_shape {cfg : Config} {pl : PlayerState} {es : List EnemyState}
    {a : Action} (h : attackNearest cfg pl es = some a) :
    ∃ x y, a = Action.make 0 0 (quantize x y).1 (quantize x y).2 := by
  cases es with
  | nil =>
    simp only [attackNearest] at h
    exact Option.noConfusion h
  | cons e rest =>
    simp only [attackNearest] at h
    rcases hsel : selectTarget cfg (e :: rest) with _ | t
    · rw [hsel] at h
      exact Option.noConfusion h
    · rw [hsel] at h
      simp only [] at h
      split at h
      · exact Option.noConfusion h
      · injection h with h2
        exact ⟨_, _, h2.symm⟩

/-- Every decision the arbiter returns is a clamped action. -/
lemma decide_is_make (cfg : Config) (st : Option GameState) :
    ∃ mx my sx sy, decideAction cfg st = Action.make mx my sx sy := by
  rcases st with _ | s
  · exact ⟨0, 0, 0, 0, rfl⟩
  · simp only [decideAction]
    rcases hpl : s.player with _ | pl
    · exact ⟨0, 0, 0, 0, rfl⟩
    · rcases hd : dodgeProjectiles cfg pl s.projectiles with _ | d <;>
        simp only [hd]
      · rcases hav : avoidEnemies cfg pl s.enemies with _ | av <;>
          simp only [hav]
        · rcases hap : approachEnemies cfg pl s.enemies with _ | ap <;>
            simp only [hap]
          · rcases hatk : attackNearest cfg pl s.enemies with _ | a <;>
              simp only [hatk]
            · exact ⟨0, 0, 0, 0, rfl⟩
            · obtain ⟨x, y, hxy⟩ := attack_shape hatk
              exact ⟨0, 0, (quantize x y).1, (quantize x y).2, hxy⟩
          · exact ⟨_, _, _, _, rfl⟩
        · exact ⟨_, _, _, _, rfl⟩
      · exact ⟨_, _, _, _, rfl⟩

/-! ## C8 -/

/-- C8: every decision the engine produces has all four axis components
in the ternary set, for every configuration and snapshot. -/
theorem C8_ternary_output (cfg : Config) (st : Option GameState) :
    ((decideAction cfg st).move_x = -1 ∨ (decideAction cfg st).move_x = 0 ∨
      (decideAction cfg st).move_x = 1) ∧
    ((decideAction cfg st).move_y = -1 ∨ (decideAction cfg st).move_y = 0 ∨
      (decideAction cfg st).move_y = 1) ∧
    ((decideAction cfg st).shoot_x = -1 ∨ (decideAction cfg st).shoot_x = 0 ∨
      (decideAction cfg st).shoot_x = 1) ∧
    ((decideAction cfg st).shoot_y = -1 ∨ (decideAction cfg st).shoot_y = 0 ∨
      (decideAction cfg st).shoot_y = 1) := by
  obtain ⟨mx, my, sx, sy, hm⟩ := decide_is_make cfg st
  rw [hm]
  exact ⟨clampAxis_cases mx, clampAxis_cases my, clampAxis_cases sx,
    clampAxis_cases sy⟩

/-! ## Evaluation of the head-on projectile scenario -/

/-- The C5 snapshot: player at the origin, no enemies, one hostile
projectile at distance 10 flying at (100, 0) straight at the player. -/
def dodgeScenario : GameState :=
  { player := some pl0, enemies := [], projectiles := [projHead] }

lemma projHead_speed : projSpeed projHead = 100 := by
  show Real.sqrt (projHead.vx ^ 2 + projHead.vy ^ 2) = 100
  rw [show projHead.vx ^ 2 + projHead.vy ^ 2 = 100 * 100 from by
    simp [projHead]; norm_num]
  exact Real.sqrt_mul_self (by norm_num)

lemma projHead_dirLen : dirLen pl0 projHead = 10 := by
  show Real.sqrt ((pl0.x - projHead.x) ^ 2 + (pl0.y - projHead.y) ^ 2) = 10
  rw [show (pl0.x - projHead.x) ^ 2 + (pl0.y - projHead.y) ^ 2 = 10 * 10 from by
    simp [projHead, pl0]; norm_num]
  exact Real.sqrt_mul_self (by norm_num)

lemma projHead_dot : approachDot pl0 projHead = 100 := by
  unfold approachDot
  rw [projHead_dirLen]
  simp [projHead, pl0]

lemma projHead_score : threatScore pl0 projHead = -49 / 10 := by
  unfold threatScore
  rw [projHead_speed, projHead_dot]
  simp only [projHead]
  norm_num

lemma projHead_survives : dodgeSurvives defaultConfig pl0 projHead := by
  refine ⟨⟨rfl, ?_⟩, ?_, ?_, ?_⟩
  · show ¬ (projHead.distance > defaultConfig.DODGE_DISTANCE ∨ projHead.distance < 1)
    simp [projHead, defaultConfig]
    norm_num
  · rw [projHead_speed]; norm_num
  · rw [projHead_dirLen]; norm_num
  · rw [projHead_dot]; norm_num

lemma scan_projHead :
    scanThreats defaultConfig pl0 [projHead] = some (projHead, -49 / 10) := by
  unfold scanThreats
  simp only [List.foldl]
  unfold scanStep
  rw [if_pos projHead_survives, projHead_score]

lemma dodge_projHead :
    dodgeProjectiles defaultConfig pl0 [projHead] = some (Action.mk 0 (-1) 0 0) := by
  have hv : Real.sqrt (projHead.vx ^ 2 + projHead.vy ^ 2) = 100 := projHead_speed
  simp only [dodgeProjectiles, scan_projHead, hv]
  rw [if_neg (by norm_num : ¬ (2:ℝ) < -49 / 10)]
  rw [if_neg (by norm_num : ¬ (100:ℝ) < 0.1)]
  have hd1 : -(projHead.vy / 100) * (projHead.x - pl0.x) +
      projHead.vx / 100 * (projHead.y - pl0.y) = 0 := by
    simp [projHead, pl0]
  have hd2 : projHead.vy / 100 * (projHead.x - pl0.x) +
      -(projHead.vx / 100) * (projHead.y - pl0.y) = 0 := by
    simp [projHead, pl0]
  rw [hd1, hd2]
  rw [if_neg (lt_irrefl (0:ℝ))]
  have hq : quantize (projHead.vy / 100) (-(projHead.vx / 100)) = (0, -1) := by
    have hx : projHead.vy / 100 = (0:ℝ) := by simp [projHead]
    have hy : -(projHead.vx / 100) = (-1:ℝ) := by simp [projHead]
    rw [hx, hy]
    rw [quantize_of_not_gt (by norm_num)]
    norm_num
  rw [hq]
  simp [Action.make, clampAxis]

lemma attack_empty (cfg : Config) (pl : PlayerState) :
    attackNearest cfg pl [] = none := by
  simp only [attackNearest]

lemma decide_dodgeScenario :
    decideAction defaultConfig (some dodgeScenario) = Action.mk 0 (-1) 0 0 := by
  have hpl : dodgeScenario.player = some pl0 := rfl
  have hpr : dodgeScenario.projectiles = [projHead] := rfl
  have hen : dodgeScenario.enemies = [] := rfl
  simp only [decideAction, hpl, hpr, hen, dodge_projHead, attack_empty]
  simp [Action.make, clampAxis]

/-! ## C5 -/

/-- C5: for the snapshot with a player at the origin, no enemies, and a
single hostile projectile at distance 10 with velocity (100, 0) flying
directly at the player, the engine's movement is on the Y axis only:
`move_x = 0` and `move_y` is -1 or 1. -/
theorem C5_head_on_projectile_dodges_on_y :
    (decideAction defaultConfig (some dodgeScenario)).move_x = 0 ∧
    ((decideAction defaultConfig (some dodgeScenario)).move_y = 1 ∨
     (decideAction defaultConfig (some dodgeScenario)).move_y = -1) := by
  rw [decide_dodgeScenario]
  norm_num

/-! ## C2 counterexample -/

/-- The head-on projectile with only its x-coordinate negated — the
claim's transformation: enemy/projectile positions mirrored, velocities
and the player untouched. -/
def projHeadM : ProjectileState :=
  { x := 10, y := 0, vx := 100, vy := 0, distance := 10, is_hostile := true }

/-- The C5 snapshot after the claim's partial mirror. -/
def dodgeScenarioM : GameState :=
  { player := some pl0, enemies := [], projectiles := [projHeadM] }

lemma projHeadM_dirLen : dirLen pl0 projHeadM = 10 := by
  show Real.sqrt ((pl0.x - projHeadM.x) ^ 2 + (pl0.y - projHeadM.y) ^ 2) = 10
  rw [show (pl0.x - projHeadM.x) ^ 2 + (pl0.y - projHeadM.y) ^ 2 = 10 * 10 from by
    simp [projHeadM, pl0]; norm_num]
  exact Real.sqrt_mul_self (by norm_num)

lemma projHeadM_dot : approachDot pl0 projHeadM = -100 := by
  unfold approachDot
  rw [projHeadM_dirLen]
  simp [projHeadM, pl0]

lemma projHeadM_not_survives : ¬ dodgeSurvives defaultConfig pl0 projHeadM := by
  rintro ⟨-, -, -, hdot⟩
  rw [projHeadM_dot] at hdot
  norm_num at hdot

lemma scan_projHeadM : scanThreats defaultConfig pl0 [projHeadM] = none := by
  unfold scanThreats
  simp only [List.foldl]
  unfold scanStep
  rw [if_neg projHeadM_not_survives]

lemma decide_dodgeScenarioM :
    decideAction defaultConfig (some dodgeScenarioM) = Action.mk 0 0 0 0 := by
  have hpl : dodgeScenarioM.player = some pl0 := rfl
  have hpr : dodgeScenarioM.projectiles = [projHeadM] := rfl
  have hen : dodgeScenarioM.enemies = [] := rfl
  have hd : dodgeProjectiles defaultConfig pl0 [projHeadM] = none := by
    simp only [dodgeProjectiles, scan_projHeadM]
  have hav : avoidEnemies defaultConfig pl0 [] = none := by
    simp only [avoidEnemies]
  have hap : approachEnemies defaultConfig pl0 [] = none := by
    simp only [approachEnemies]
  simp only [decideAction, hpl, hpr, hen, hd, hav, hap, attack_empty]
  simp [Action.make, clampAxis]

/-- C2 (counterexample): negating only the x-coordinates of enemies and
projectiles (velocities and player untouched) does not negate-x and
preserve-y the decision. The original head-on snapshot dodges with
move = (0, -1); its partially mirrored version produces the zero
decision, so the y-component of movement is not preserved. -/
theorem C2_counterexample :
    ({ projHead with x := -projHead.x } : ProjectileState) = projHeadM ∧
    decideAction defaultConfig (some dodgeScenario) = Action.mk 0 (-1) 0 0 ∧
    decideAction defaultConfig (some dodgeScenarioM) = Action.mk 0 0 0 0 ∧
    ¬ ((decideAction defaultConfig (some dodgeScenarioM)).move_x =
         -(decideAction defaultConfig (some dodgeScenario)).move_x ∧
       (decideAction defaultConfig (some dodgeScenarioM)).move_y =
         (decideAction defaultConfig (some dodgeScenario)).move_y ∧
       (decideAction defaultConfig (some dodgeScenarioM)).shoot_x =
         -(decideAction defaultConfig (some dodgeScenario)).shoot_x ∧
       (decideAction defaultConfig (some dodgeScenarioM)).shoot_y =
         (decideAction defaultConfig (some dodgeScenario)).shoot_y) := by
  refine ⟨?_, decide_dodgeScenario, decide_dodgeScenarioM, ?_⟩
  · simp [projHead, projHeadM]
  · rw [decide_dodgeScenario, decide_dodgeScenarioM]
    intro h
    exact absurd h.2.1 (by norm_num)

/-! ## C4: the scan loop computes the minimum threat score -/

/-- Invariant of the most-dangerous-projectile fold, generalized over the
accumulator: a `none` result means nothing survived, and a `some` result
carries a surviving projectile together with a score that is minimal among
all surviving candidates and no larger than the incoming accumulator. -/
lemma scan_foldl_spec (cfg : Config) (pl : PlayerState)
    (projs : List ProjectileState) :
    ∀ acc : Option (ProjectileState × ℝ),
      (projs.foldl (scanStep cfg pl) acc = none →
        acc = none ∧ ∀ q ∈ projs, ¬ dodgeSurvives cfg pl q) ∧
      (∀ p s, projs.foldl (scanStep cfg pl) acc = some (p, s) →
        ((acc = some (p, s) ∨
            (p ∈ projs ∧ dodgeSurvives cfg pl p ∧ s = threatScore pl p)) ∧
         (∀ q ∈ projs, dodgeSurvives cfg pl q → s ≤ threatScore pl q) ∧
         (∀ q b, acc = some (q, b) → s ≤ b))) := by
  induction projs with
  | nil =>
    intro acc
    refine ⟨fun h => ⟨h, by simp⟩, fun p s h => ?_⟩
    simp only [List.foldl] at h
    refine ⟨Or.inl h, by simp, fun q b hb => ?_⟩
    rw [h] at hb
    injection hb with hb2
    injection hb2 with hb3 hb4
    rw [hb4]
  | cons r rest ih =>
    intro acc
    simp only [List.foldl]
    by_cases hsurv : dodgeSurvives cfg pl r
    · have hstep : ∃ r0 b0, scanStep cfg pl acc r = some (r0, b0) ∧
          b0 ≤ threatScore pl r ∧
          (acc = some (r0, b0) ∨ (r0 = r ∧ b0 = threatScore pl r)) ∧
          (∀ q b, acc = some (q, b) → b0 ≤ b) := by
        unfold scanStep
        rw [if_pos hsurv]
        rcases acc with _ | ⟨q0, c0⟩
        · exact ⟨r, threatScore pl r, rfl, le_refl _, Or.inr ⟨rfl, rfl⟩,
            fun q b hb => Option.noConfusion hb⟩
        · simp only []
          by_cases hlt : threatScore pl r < c0
          · rw [if_pos hlt]
            refine ⟨r, threatScore pl r, rfl, le_refl _, Or.inr ⟨rfl, rfl⟩,
              fun q b hb => ?_⟩
            injection hb with hb2
            injection hb2 with hb3 hb4
            rw [← hb4]
            exact le_of_lt hlt
          · rw [if_neg hlt]
            refine ⟨q0, c0, rfl, le_of_not_lt hlt, Or.inl rfl, fun q b hb => ?_⟩
            injection hb with hb2
            injection hb2 with hb3 hb4
            rw [hb4]
      obtain ⟨r0, b0, hstep_eq, hb0_le, hb0_src, hb0_acc⟩ := hstep
      rw [hstep_eq]
      constructor
      · intro hnone
        have := (ih (some (r0, b0))).1 hnone
        exact Option.noConfusion this.1
      · intro p s hsome
        obtain ⟨hsrc, hmin, hacc⟩ := (ih (some (r0, b0))).2 p s hsome
        have hs_le_b0 : s ≤ b0 := hacc r0 b0 rfl
        refine ⟨?_, ?_, ?_⟩
        · rcases hsrc with heq | ⟨hmem, hs1, hs2⟩
          · rcases hb0_src with hacc_eq | ⟨hr0, hb0⟩
            · left
              rw [hacc_eq, heq]
            · right
              injection heq with heq2
              injection heq2 with heq3 heq4
              refine ⟨?_, ?_, ?_⟩
              · rw [← heq3, hr0]; exact List.mem_cons_self r rest
              · rw [← heq3, hr0]; exact hsurv
              · rw [← heq4, hb0, ← heq3, hr0]
          · exact Or.inr ⟨List.mem_cons_of_mem r hmem, hs1, hs2⟩
        · intro q hq hqsurv
          rcases List.mem_cons.mp hq with hq_eq | hq_mem
          · rw [hq_eq]
            exact le_trans hs_le_b0 hb0_le
          · exact hmin q hq_mem hqsurv
        · intro q b hb
          exact le_trans hs_le_b0 (hb0_acc q b hb)
    · have hstep_eq : scanStep cfg pl acc r = acc := by
        unfold scanStep
        rw [if_neg hsurv]
      rw [hstep_eq]
      constructor
      · intro hnone
        obtain ⟨hacc, hrest⟩ := (ih acc).1 hnone
        refine ⟨hacc, fun q hq => ?_⟩
        rcases List.mem_cons.mp hq with hq_eq | hq_mem
        · rw [hq_eq]; exact hsurv
        · exact hrest q hq_mem
      · intro p s hsome
        obtain ⟨hsrc, hmin, hacc⟩ := (ih acc).2 p s hsome
        refine ⟨?_, ?_, hacc⟩
        · rcases hsrc with heq | ⟨hmem, hs1, hs2⟩
          · exact Or.inl heq
          · exact Or.inr ⟨List.mem_cons_of_mem r hmem, hs1, hs2⟩
        · intro q hq hqsurv
          rcases List.mem_cons.mp hq with hq_eq | hq_mem
          · exfalso
            rw [hq_eq] at hqsurv
            exact hsurv hqsurv
          · exact hmin q hq_mem hqsurv

/-- Specification of `scanThreats` itself (accumulator `none`). -/
lemma scanThreats_none_iff_all_fail (cfg : Config) (pl : PlayerState)
    (projs : List ProjectileState) (h : scanThreats cfg pl projs = none) :
    ∀ q ∈ projs, ¬ dodgeSurvives cfg pl q :=
  ((scan_foldl_spec cfg pl projs none).1 h).2

/-- A successful scan yields a surviving member whose score is the
minimum over all surviving candidates. -/
lemma scanThreats_some_spec (cfg : Config) (pl : PlayerState)
    (projs : List ProjectileState) (p : ProjectileState) (s : ℝ)
    (h : scanThreats cfg pl projs = some (p, s)) :
    p ∈ projs ∧ dodgeSurvives cfg pl p ∧ s = threatScore pl p ∧
      ∀ q ∈ projs, dodgeSurvives cfg pl q → s ≤ threatScore pl q := by
  obtain ⟨hsrc, hmin, -⟩ := ((scan_foldl_spec cfg pl projs none).2 p s) h
  rcases hsrc with heq | ⟨hmem, hs1, hs2⟩
  · exact Option.noConfusion heq
  · exact ⟨hmem, hs1, hs2, hmin⟩

/-- An empty scan returns no candidate. -/
lemma scanThreats_nil (cfg : Config) (pl : PlayerState) :
    scanThreats cfg pl [] = none := rfl

/-- A failed scan means no dodge. -/
lemma dodge_none_of_scan_none {cfg : Config} {pl : PlayerState}
    {projs : List ProjectileState} (h : scanThreats cfg pl projs = none) :
    dodgeProjectiles cfg pl projs = none := by
  cases projs with
  | nil => simp only [dodgeProjectiles]
  | cons p rest => simp only [dodgeProjectiles, h]

/-- A minimum score above the urgency ceiling 2.0 means no dodge. -/
lemma dodge_none_of_score_big {cfg : Config} {pl : PlayerState}
    {projs : List ProjectileState} {p : ProjectileState} {s : ℝ}
    (h : scanThreats cfg pl projs = some (p, s)) (hs : 2 < s) :
    dodgeProjectiles cfg pl projs = none := by
  cases projs with
  | nil => simp only [dodgeProjectiles]
  | cons r rest =>
    simp only [dodgeProjectiles, h]
    rw [if_pos hs]

/-! ## C4 -/

/-- C4: the threat assessor scores every surviving candidate with
`(distance / speed) * (1 - 0.5 * dot)` (where `dot` is the dot product of
the unit projectile-to-player direction with the projectile velocity),
selects a surviving candidate of minimum score, and reports no dodge when
no candidate survives or when the minimum score exceeds 2.0. -/
theorem C4_threat_score_minimum (cfg : Config) (pl : PlayerState)
    (projs : List ProjectileState) :
    (∀ p s, scanThreats cfg pl projs = some (p, s) →
      p ∈ projs ∧ dodgeSurvives cfg pl p ∧
      s = (p.distance / projSpeed p) * (1 - approachDot pl p * 0.5) ∧
      (∀ q ∈ projs, dodgeSurvives cfg pl q → s ≤ threatScore pl q) ∧
      (2 < s → dodgeProjectiles cfg pl projs = none)) ∧
    (scanThreats cfg pl projs = none →
      (∀ q ∈ projs, ¬ dodgeSurvives cfg pl q) ∧
      dodgeProjectiles cfg pl projs = none) := by
  constructor
  · intro p s h
    obtain ⟨hmem, hsurv, hval, hmin⟩ := scanThreats_some_spec cfg pl projs p s h
    exact ⟨hmem, hsurv, hval, hmin, fun hs => dodge_none_of_score_big h hs⟩
  · intro h
    exact ⟨scanThreats_none_iff_all_fail cfg pl projs h,
      dodge_none_of_scan_none h⟩

/-- C4 (witness): the minimum-score specification applied to the concrete
head-on projectile, whose scan returns score -49/10. -/
theorem C4_threat_score_minimum_witness :
    scanThreats defaultConfig pl0 [projHead] = some (projHead, -49 / 10) ∧
    (projHead ∈ [projHead] ∧ dodgeSurvives defaultConfig pl0 projHead ∧
      (-49 / 10 : ℝ) =
        (projHead.distance / projSpeed projHead) *
          (1 - approachDot pl0 projHead * 0.5) ∧
      (∀ q ∈ [projHead], dodgeSurvives defaultConfig pl0 q →
        (-49 / 10 : ℝ) ≤ threatScore pl0 q) ∧
      ((2:ℝ) < -49 / 10 →
        dodgeProjectiles defaultConfig pl0 [projHead] = none)) :=
  ⟨scan_projHead,
    (C4_threat_score_minimum defaultConfig pl0 [projHead]).1 projHead
      (-49 / 10) scan_projHead⟩

/-! ## C10 -/

/-- Clamping the zero side of a single-axis pair keeps a zero side. -/
lemma clampAxis_pair_zero {q1 q2 : ℤ} (h : q1 = 0 ∨ q2 = 0) :
    clampAxis q1 = 0 ∨ clampAxis q2 = 0 := by
  rcases h with h | h
  · left; rw [h]; decide
  · right; rw [h]; decide

/-- Clamping is idempotent. -/
lemma clampAxis_idem (v : ℤ) : clampAxis (clampAxis v) = clampAxis v := by
  unfold clampAxis; omega

/-- A clamped action whose movement inputs have a zero side keeps a zero
movement side. -/
lemma make_move_axis {m1 m2 : ℤ} (h : m1 = 0 ∨ m2 = 0) (sx sy : ℤ) :
    (Action.make m1 m2 sx sy).move_x = 0 ∨ (Action.make m1 m2 sx sy).move_y = 0 := by
  rcases h with h | h
  · left; show clampAxis m1 = 0; rw [h]; decide
  · right; show clampAxis m2 = 0; rw [h]; decide

/-- A clamped action whose aim inputs have a zero side keeps a zero aim
side. -/
lemma make_shoot_axis {s1 s2 : ℤ} (h : s1 = 0 ∨ s2 = 0) (mx my : ℤ) :
    (Action.make mx my s1 s2).shoot_x = 0 ∨ (Action.make mx my s1 s2).shoot_y = 0 := by
  rcases h with h | h
  · left; show clampAxis s1 = 0; rw [h]; decide
  · right; show clampAxis s2 = 0; rw [h]; decide

/-- C10: every decision the engine returns is axis-aligned — at most one
of `move_x`, `move_y` is non-zero and at most one of `shoot_x`, `shoot_y`
is non-zero, for every configuration and snapshot. -/
theorem C10_axis_aligned_output (cfg : Config) (st : Option GameState) :
    ((decideAction cfg st).move_x = 0 ∨ (decideAction cfg st).move_y = 0) ∧
    ((decideAction cfg st).shoot_x = 0 ∨ (decideAction cfg st).shoot_y = 0) := by
  rcases st with _ | s
  · simp only [decideAction]
    exact ⟨Or.inl (by decide), Or.inl (by decide)⟩
  · simp only [decideAction]
    rcases hpl : s.player with _ | pl
    · simp only [hpl]
      exact ⟨Or.inl (by decide), Or.inl (by decide)⟩
    · simp only [hpl]
      have hshoot : ∀ mx my : ℤ,
          ((Action.make mx my
              (match attackNearest cfg pl s.enemies with
                | some a => a.shoot_x | none => 0)
              (match attackNearest cfg pl s.enemies with
                | some a => a.shoot_y | none => 0)).shoot_x = 0 ∨
           (Action.make mx my
              (match attackNearest cfg pl s.enemies with
                | some a => a.shoot_x | none => 0)
              (match attackNearest cfg pl s.enemies with
                | some a => a.shoot_y | none => 0)).shoot_y = 0) := by
        intro mx my
        rcases hatk : attackNearest cfg pl s.enemies with _ | a
        · simp only [hatk]
          exact make_shoot_axis (Or.inl rfl) mx my
        · simp only [hatk]
          obtain ⟨x, y, hxy⟩ := attack_shape hatk
          rw [hxy]
          exact make_shoot_axis (clampAxis_pair_zero (quantize_axis x y)) mx my
      rcases hd : dodgeProjectiles cfg pl s.projectiles with _ | d
      · simp only [hd]
        rcases hav : avoidEnemies cfg pl s.enemies with _ | av
        · simp only [hav]
          rcases hap : approachEnemies cfg pl s.enemies with _ | ap
          · simp only [hap]
            rcases hatk : attackNearest cfg pl s.enemies with _ | a
            · simp only [hatk]
              exact ⟨Or.inl (by decide), Or.inl (by decide)⟩
            · simp only [hatk]
              obtain ⟨x, y, hxy⟩ := attack_shape hatk
              rw [hxy]
              refine ⟨make_move_axis (Or.inl rfl) _ _, ?_⟩
              exact make_shoot_axis (quantize_axis x y) 0 0
          · simp only [hap]
            obtain ⟨x, y, hxy⟩ := approach_shape hap
            refine ⟨?_, hshoot ap.move_x ap.move_y⟩
            rw [hxy]
            exact make_move_axis (clampAxis_pair_zero (quantize_axis x y)) _ _
        · simp only [hav]
          obtain ⟨x, y, hxy⟩ := avoid_shape hav
          refine ⟨?_, hshoot av.move_x av.move_y⟩
          rw [hxy]
          exact make_move_axis (clampAxis_pair_zero (quantize_axis x y)) _ _
      · simp only [hd]
        obtain ⟨x, y, hxy⟩ := dodge_shape hd
        refine ⟨?_, hshoot d.move_x d.move_y⟩
        rw [hxy]
        exact make_move_axis (clampAxis_pair_zero (quantize_axis x y)) _ _

/-! ## C6 -/

/-- When no enemy is within attack range, the selection loop finds no
target. -/
lemma selectTarget_none_of_all_far {cfg : Config} {es : List EnemyState}
    (h : ∀ e ∈ es, ¬ (e.distance ≤ cfg.ATTACK_RANGE)) :
    selectTarget cfg es = none := by
  induction es with
  | nil => rfl
  | cons e rest ih =>
    simp only [selectTarget]
    rw [if_neg (h e (List.mem_cons_self e rest))]
    exact ih fun q hq => h q (List.mem_cons_of_mem e hq)

/-- A selected target is the first qualifying enemy in list order: the
enemies before it all fail the range test and the target passes it. -/
lemma selectTarget_some_spec {cfg : Config} {es : List EnemyState}
    {t : EnemyState} (h : selectTarget cfg es = some t) :
    ∃ l1 l2, es = l1 ++ t :: l2 ∧ t.distance ≤ cfg.ATTACK_RANGE ∧
      ∀ e ∈ l1, ¬ (e.distance ≤ cfg.ATTACK_RANGE) := by
  induction es with
  | nil => exact Option.noConfusion h
  | cons e rest ih =>
    simp only [selectTarget] at h
    by_cases hq : e.distance ≤ cfg.ATTACK_RANGE
    · rw [if_pos hq] at h
      injection h with h2
      exact ⟨[], rest, by rw [h2]; rfl, h2 ▸ hq, by simp⟩
    · rw [if_neg hq] at h
      obtain ⟨l1, l2, heq, hle, hfail⟩ := ih h
      refine ⟨e :: l1, l2, by rw [heq]; rfl, hle, fun q hqm => ?_⟩
      rcases List.mem_cons.mp hqm with hq_eq | hq_mem
      · rw [hq_eq]; exact hq
      · exact hfail q hq_mem

/-- A Euclidean speed above 0.15 forces one velocity component above the
code's componentwise 0.1 threshold. -/
lemma lead_guard_of_speed {vx vy : ℝ}
    (h : 0.15 < Real.sqrt (vx ^ 2 + vy ^ 2)) : 0.1 < |vx| ∨ 0.1 < |vy| := by
  by_contra hc
  push_neg at hc
  obtain ⟨h1, h2⟩ := hc
  have hvx : vx ^ 2 ≤ 0.01 := by
    have := abs_nonneg vx
    have habs : |vx| ^ 2 = vx ^ 2 := sq_abs vx
    nlinarith
  have hvy : vy ^ 2 ≤ 0.01 := by
    have := abs_nonneg vy
    have habs : |vy| ^ 2 = vy ^ 2 := sq_abs vy
    nlinarith
  have hle : Real.sqrt (vx ^ 2 + vy ^ 2) ≤ Real.sqrt 0.02 :=
    Real.sqrt_le_sqrt (by linarith)
  have hval : Real.sqrt 0.02 < 0.15 := by
    have h1 : Real.sqrt 0.02 < Real.sqrt 0.0225 :=
      Real.sqrt_lt_sqrt (by norm_num) (by norm_num)
    have h2 : Real.sqrt 0.0225 = 0.15 := sqrt_eq_of_sq (by norm_num) (by norm_num)
    linarith
  linarith

/-- When the componentwise velocity guard fires, the aim vector is the
target offset plus the linear lead `velocity * (distance / 200)`. -/
lemma aimVector_lead {pl : PlayerState} {t : EnemyState}
    (h : 0.1 < |t.vx| ∨ 0.1 < |t.vy|) :
    aimVector pl t =
      (t.x - pl.x + t.vx * (t.distance / 200),
       t.y - pl.y + t.vy * (t.distance / 200)) := by
  unfold aimVector
  rw [if_pos h]

/-- C6: the aimer selects the first enemy in list order whose distance is
within the inclusive attack range; with no qualifying enemy it produces
no aim; and a selected target whose speed exceeds the small epsilon 0.15
is aimed with the linear lead `(target - player) + velocity *
(distance / 200)` before normalization and quantization. -/
theorem C6_selection_and_leading (cfg : Config) (pl : PlayerState)
    (enemies : List EnemyState) :
    ((∀ e ∈ enemies, ¬ (e.distance ≤ cfg.ATTACK_RANGE)) →
      attackNearest cfg pl enemies = none) ∧
    (∀ t, selectTarget cfg enemies = some t →
      (∃ l1 l2, enemies = l1 ++ t :: l2 ∧ t.distance ≤ cfg.ATTACK_RANGE ∧
        ∀ e ∈ l1, ¬ (e.distance ≤ cfg.ATTACK_RANGE)) ∧
      (0.15 < Real.sqrt (t.vx ^ 2 + t.vy ^ 2) →
        aimVector pl t =
          (t.x - pl.x + t.vx * (t.distance / 200),
           t.y - pl.y + t.vy * (t.distance / 200)))) := by
  constructor
  · intro h
    cases enemies with
    | nil => rfl
    | cons e rest =>
      simp only [attackNearest, selectTarget_none_of_all_far h]
  · intro t ht
    exact ⟨selectTarget_some_spec ht,
      fun hspeed => aimVector_lead (lead_guard_of_speed hspeed)⟩

/-- A moving enemy at distance 100 straight right of the origin. -/
def eLead : EnemyState := { x := 100, y := 0, vx := 50, vy := 0, distance := 100 }

/-- C6 (witness): the selection-and-leading theorem applied to `eLead`,
which is selected at distance 100 and aimed with lead (125, 0), and to a
far enemy at distance 500 which yields no aim. -/
theorem C6_selection_and_leading_witness :
    selectTarget defaultConfig [eLead] = some eLead ∧
    (0.15:ℝ) < Real.sqrt (eLead.vx ^ 2 + eLead.vy ^ 2) ∧
    (∃ l1 l2, [eLead] = l1 ++ eLead :: l2 ∧
      eLead.distance ≤ defaultConfig.ATTACK_RANGE ∧
      ∀ e ∈ l1, ¬ (e.distance ≤ defaultConfig.ATTACK_RANGE)) ∧
    aimVector pl0 eLead = (125, 0) ∧
    attackNearest defaultConfig pl0
      [{ x := 500, y := 0, distance := 500 }] = none := by
  have hsel : selectTarget defaultConfig [eLead] = some eLead := by
    simp only [selectTarget]
    rw [if_pos (by norm_num [eLead, defaultConfig])]
  have hspeed : (0.15:ℝ) < Real.sqrt (eLead.vx ^ 2 + eLead.vy ^ 2) := by
    have : Real.sqrt (eLead.vx ^ 2 + eLead.vy ^ 2) = 50 := by
      rw [show eLead.vx ^ 2 + eLead.vy ^ 2 = 50 * 50 from by
        simp [eLead]; norm_num]
      exact Real.sqrt_mul_self (by norm_num)
    rw [this]; norm_num
  obtain ⟨hdecomp, hlead⟩ :=
    (C6_selection_and_leading defaultConfig pl0 [eLead]).2 eLead hsel
  have hfar : attackNearest defaultConfig pl0
      [{ x := 500, y := 0, distance := 500 }] = none :=
    (C6_selection_and_leading defaultConfig pl0 _).1
      (by intro e he; simp at he; rw [he]; norm_num [defaultConfig])
  refine ⟨hsel, hspeed, hdecomp, ?_, hfar⟩
  rw [hlead hspeed]
  simp [eLead, pl0]
  norm_num

/-! ## C9 -/

/-- C9: when the nearest (first-listed) enemy sits exactly at
`attack_range` (with a consistent distance field, `attack_range` at least
the 0.1 degeneracy epsilon and at most `approach_range`), and neither the
threat assessor nor the contact avoider fires, the approach planner still
fires — its lower guard is a strict `<` — so the decision carries
non-zero movement toward an enemy that the aimer simultaneously treats as
in attack range. -/
theorem C9_boundary_approach_fires (cfg : Config) (pl : PlayerState)
    (e : EnemyState) (rest : List EnemyState) (projs : List ProjectileState)
    (hdist : e.distance = cfg.ATTACK_RANGE)
    (hrange : cfg.ATTACK_RANGE ≤ cfg.APPROACH_RANGE)
    (hcons : Real.sqrt ((e.x - pl.x) ^ 2 + (e.y - pl.y) ^ 2) = e.distance)
    (hmin : 0.1 ≤ cfg.ATTACK_RANGE)
    (hdodge : dodgeProjectiles cfg pl projs = none)
    (havoid : avoidEnemies cfg pl (e :: rest) = none) :
    ∃ ap, approachEnemies cfg pl (e :: rest) = some ap ∧
      (ap.move_x ≠ 0 ∨ ap.move_y ≠ 0) ∧
      (∀ s : GameState, s.player = some pl → s.enemies = e :: rest →
        s.projectiles = projs →
        (decideAction cfg (some s)).move_x = ap.move_x ∧
        (decideAction cfg (some s)).move_y = ap.move_y) ∧
      selectTarget cfg (e :: rest) = some e := by
  have hnotlt : ¬ (Real.sqrt ((e.x - pl.x) ^ 2 + (e.y - pl.y) ^ 2) < 0.1) := by
    rw [hcons, hdist]
    exact not_lt.mpr hmin
  have happ : approachEnemies cfg pl (e :: rest) =
      some (Action.make
        (quantize
          ((e.x - pl.x) / Real.sqrt ((e.x - pl.x) ^ 2 + (e.y - pl.y) ^ 2))
          ((e.y - pl.y) / Real.sqrt ((e.x - pl.x) ^ 2 + (e.y - pl.y) ^ 2))).1
        (quantize
          ((e.x - pl.x) / Real.sqrt ((e.x - pl.x) ^ 2 + (e.y - pl.y) ^ 2))
          ((e.y - pl.y) / Real.sqrt ((e.x - pl.x) ^ 2 + (e.y - pl.y) ^ 2))).2
        0 0) := by
    simp only [approachEnemies]
    rw [if_neg (by
      rw [hdist]
      push_neg
      exact ⟨le_refl _, hrange⟩)]
    rw [if_neg hnotlt]
  set qx := (e.x - pl.x) / Real.sqrt ((e.x - pl.x) ^ 2 + (e.y - pl.y) ^ 2)
  set qy := (e.y - pl.y) / Real.sqrt ((e.x - pl.x) ^ 2 + (e.y - pl.y) ^ 2)
  refine ⟨_, happ, ?_, ?_, ?_⟩
  · rcases quantize_shape qx qy with ⟨v, hv, hq⟩ | ⟨v, hv, hq⟩
    · left
      show clampAxis (quantize qx qy).1 ≠ 0
      rw [hq]
      rcases hv with hv | hv <;> rw [hv] <;> decide
    · right
      show clampAxis (quantize qx qy).2 ≠ 0
      rw [hq]
      rcases hv with hv | hv <;> rw [hv] <;> decide
  · intro s hspl hsen hspr
    simp only [decideAction, hspl, hsen, hspr, hdodge, havoid, happ]
    constructor
    · show clampAxis (clampAxis (quantize qx qy).1) = clampAxis (quantize qx qy).1
      exact clampAxis_idem _
    · show clampAxis (clampAxis (quantize qx qy).2) = clampAxis (quantize qx qy).2
      exact clampAxis_idem _
  · simp only [selectTarget]
    rw [if_pos (le_of_eq hdist)]

/-- The enemy exactly at the default attack range 300. -/
def eBoundary : EnemyState := { x := 300, y := 0, distance := 300 }

/-- C9 (witness): the boundary theorem applied to a concrete snapshot
with the player at the origin and one enemy at (300, 0), distance 300. -/
theorem C9_boundary_approach_fires_witness :
    eBoundary.distance = defaultConfig.ATTACK_RANGE ∧
    defaultConfig.ATTACK_RANGE ≤ defaultConfig.APPROACH_RANGE ∧
    Real.sqrt ((eBoundary.x - pl0.x) ^ 2 + (eBoundary.y - pl0.y) ^ 2) =
      eBoundary.distance ∧
    (0.1:ℝ) ≤ defaultConfig.ATTACK_RANGE ∧
    dodgeProjectiles defaultConfig pl0 [] = none ∧
    avoidEnemies defaultConfig pl0 [eBoundary] = none ∧
    ∃ ap, approachEnemies defaultConfig pl0 [eBoundary] = some ap ∧
      (ap.move_x ≠ 0 ∨ ap.move_y ≠ 0) ∧
      (∀ s : GameState, s.player = some pl0 → s.enemies = [eBoundary] →
        s.projectiles = [] →
        (decideAction defaultConfig (some s)).move_x = ap.move_x ∧
        (decideAction defaultConfig (some s)).move_y = ap.move_y) ∧
      selectTarget defaultConfig [eBoundary] = some eBoundary := by
  have h1 : eBoundary.distance = defaultConfig.ATTACK_RANGE := by
    norm_num [eBoundary, defaultConfig]
  have h2 : defaultConfig.ATTACK_RANGE ≤ defaultConfig.APPROACH_RANGE := by
    norm_num [defaultConfig]
  have h3 : Real.sqrt ((eBoundary.x - pl0.x) ^ 2 + (eBoundary.y - pl0.y) ^ 2) =
      eBoundary.distance := by
    rw [show (eBoundary.x - pl0.x) ^ 2 + (eBoundary.y - pl0.y) ^ 2 = 300 * 300
      from by simp [eBoundary, pl0]; norm_num]
    rw [Real.sqrt_mul_self (by norm_num : (0:ℝ) ≤ 300)]
    norm_num [eBoundary]
  have h4 : (0.1:ℝ) ≤ defaultConfig.ATTACK_RANGE := by
    norm_num [defaultConfig]
  have h5 : dodgeProjectiles defaultConfig pl0 [] = none := by
    simp only [dodgeProjectiles]
  have h6 : avoidEnemies defaultConfig pl0 [eBoundary] = none := by
    simp only [avoidEnemies]
    rw [show closeEnemies defaultConfig [eBoundary] = [] from by
      simp only [closeEnemies]
      rw [if_neg (by norm_num [eBoundary, defaultConfig])]]
  exact ⟨h1, h2, h3, h4, h5, h6,
    C9_boundary_approach_fires defaultConfig pl0 eBoundary [] [] h1 h2 h3 h4 h5 h6⟩

/-! ## C2 amended: the full mirror of the world -/

/-- Mirror of the player: x-coordinate and x-velocity negated. -/
def mirrorPlayer (pl : PlayerState) : PlayerState :=
  { pl with x := -pl.x, vx := -pl.vx }

/-- Mirror of an enemy: x-coordinate and x-velocity negated. -/
def mirrorEnemy (e : EnemyState) : EnemyState :=
  { e with x := -e.x, vx := -e.vx }

/-- Mirror of a projectile: x-coordinate and x-velocity negated. -/
def mirrorProjectile (p : ProjectileState) : ProjectileState :=
  { p with x := -p.x, vx := -p.vx }

/-- Mirror of the whole snapshot. -/
def mirrorState (s : GameState) : GameState :=
  { s with player := s.player.map mirrorPlayer,
           enemies := s.enemies.map mirrorEnemy,
           projectiles := s.projectiles.map mirrorProjectile }

/-- Mirror of a decision: x-components negated, y-components kept. -/
def mirrorAction (a : Action) : Action :=
  ⟨-a.move_x, a.move_y, -a.shoot_x, a.shoot_y⟩

/-- Cross product of a projectile's velocity with its offset from the
player; non-zero means the velocity is not parallel to the offset. -/
def projCross (pl : PlayerState) (p : ProjectileState) : ℝ :=
  p.vx * (p.y - pl.y) - p.vy * (p.x - pl.x)

@[simp] lemma mirrorPlayer_x (pl : PlayerState) : (mirrorPlayer pl).x = -pl.x := rfl
@[simp] lemma mirrorPlayer_y (pl : PlayerState) : (mirrorPlayer pl).y = pl.y := rfl
@[simp] lemma mirrorEnemy_x (e : EnemyState) : (mirrorEnemy e).x = -e.x := rfl
@[simp] lemma mirrorEnemy_y (e : EnemyState) : (mirrorEnemy e).y = e.y := rfl
@[simp] lemma mirrorEnemy_vx (e : EnemyState) : (mirrorEnemy e).vx = -e.vx := rfl
@[simp] lemma mirrorEnemy_vy (e : EnemyState) : (mirrorEnemy e).vy = e.vy := rfl
@[simp] lemma mirrorEnemy_distance (e : EnemyState) :
    (mirrorEnemy e).distance = e.distance := rfl
@[simp] lemma mirrorProjectile_x (p : ProjectileState) :
    (mirrorProjectile p).x = -p.x := rfl
@[simp] lemma mirrorProjectile_y (p : ProjectileState) :
    (mirrorProjectile p).y = p.y := rfl
@[simp] lemma mirrorProjectile_vx (p : ProjectileState) :
    (mirrorProjectile p).vx = -p.vx := rfl
@[simp] lemma mirrorProjectile_vy (p : ProjectileState) :
    (mirrorProjectile p).vy = p.vy := rfl
@[simp] lemma mirrorProjectile_distance (p : ProjectileState) :
    (mirrorProjectile p).distance = p.distance := rfl
@[simp] lemma mirrorProjectile_hostile (p : ProjectileState) :
    (mirrorProjectile p).is_hostile = p.is_hostile := rfl
@[simp] lemma mirrorAction_move_x (a : Action) :
    (mirrorAction a).move_x = -a.move_x := rfl
@[simp] lemma mirrorAction_move_y (a : Action) :
    (mirrorAction a).move_y = a.move_y := rfl
@[simp] lemma mirrorAction_shoot_x (a : Action) :
    (mirrorAction a).shoot_x = -a.shoot_x := rfl
@[simp] lemma mirrorAction_shoot_y (a : Action) :
    (mirrorAction a).shoot_y = a.shoot_y := rfl

/-- Mirroring commutes with the clamping constructor. -/
lemma mirrorAction_make (a b c d : ℤ) :
    mirrorAction (Action.make a b c d) = Action.make (-a) b (-c) d := by
  unfold mirrorAction Action.make
  rw [clampAxis_neg, clampAxis_neg]

/-- Projectile speed is mirror-invariant. -/
lemma mirror_speed (p : ProjectileState) :
    projSpeed (mirrorProjectile p) = projSpeed p := by
  show Real.sqrt ((-p.vx) ^ 2 + p.vy ^ 2) = Real.sqrt (p.vx ^ 2 + p.vy ^ 2)
  congr 1
  ring

/-- The projectile-to-player length is mirror-invariant. -/
lemma mirror_dirLen (pl : PlayerState) (p : ProjectileState) :
    dirLen (mirrorPlayer pl) (mirrorProjectile p) = dirLen pl p := by
  show Real.sqrt ((-pl.x - -p.x) ^ 2 + (pl.y - p.y) ^ 2) =
    Real.sqrt ((pl.x - p.x) ^ 2 + (pl.y - p.y) ^ 2)
  congr 1
  ring

/-- The approach dot product is mirror-invariant. -/
lemma mirror_dot (pl : PlayerState) (p : ProjectileState) :
    approachDot (mirrorPlayer pl) (mirrorProjectile p) = approachDot pl p := by
  unfold approachDot
  rw [mirror_dirLen]
  show (-pl.x - -p.x) / dirLen pl p * -p.vx + (pl.y - p.y) / dirLen pl p * p.vy =
    (pl.x - p.x) / dirLen pl p * p.vx + (pl.y - p.y) / dirLen pl p * p.vy
  ring

/-- The survival predicate of the scan loop is mirror-invariant. -/
lemma mirror_survives (cfg : Config) (pl : PlayerState) (p : ProjectileState) :
    dodgeSurvives cfg (mirrorPlayer pl) (mirrorProjectile p) ↔
      dodgeSurvives cfg pl p := by
  unfold dodgeSurvives
  rw [mirror_speed, mirror_dirLen, mirror_dot]
  exact Iff.rfl

/-- The threat score is mirror-invariant. -/
lemma mirror_score (pl : PlayerState) (p : ProjectileState) :
    threatScore (mirrorPlayer pl) (mirrorProjectile p) = threatScore pl p := by
  unfold threatScore
  rw [mirror_speed, mirror_dot]
  rfl

/-- One scan step commutes with the mirror. -/
lemma mirror_scanStep (cfg : Config) (pl : PlayerState)
    (acc : Option (ProjectileState × ℝ)) (p : ProjectileState) :
    scanStep cfg (mirrorPlayer pl)
        (Option.map (Prod.map mirrorProjectile id) acc) (mirrorProjectile p) =
      Option.map (Prod.map mirrorProjectile id) (scanStep cfg pl acc p) := by
  unfold scanStep
  by_cases hs : dodgeSurvives cfg pl p
  · rw [if_pos ((mirror_survives cfg pl p).mpr hs), if_pos hs]
    rcases acc with _ | ⟨q, b⟩
    · simp only [Option.map, Prod.map, mirror_score, id]
    · simp only [Option.map, Prod.map, mirror_score, id]
      by_cases hlt : threatScore pl p < b
      · rw [if_pos hlt, if_pos hlt]
      · rw [if_neg hlt, if_neg hlt]
  · rw [if_neg (fun hc => hs ((mirror_survives cfg pl p).mp hc)), if_neg hs]

/-- The whole scan fold commutes with the mirror. -/
lemma mirror_scan_fold (cfg : Config) (pl : PlayerState)
    (projs : List ProjectileState) :
    ∀ acc : Option (ProjectileState × ℝ),
      (projs.map mirrorProjectile).foldl (scanStep cfg (mirrorPlayer pl))
          (Option.map (Prod.map mirrorProjectile id) acc) =
        Option.map (Prod.map mirrorProjectile id)
          (projs.foldl (scanStep cfg pl) acc) := by
  induction projs with
  | nil => intro acc; rfl
  | cons p rest ih =>
    intro acc
    simp only [List.map, List.foldl]
    rw [mirror_scanStep]
    exact ih _

/-- `scanThreats` commutes with the mirror. -/
lemma mirror_scanThreats (cfg : Config) (pl : PlayerState)
    (projs : List ProjectileState) :
    scanThreats cfg (mirrorPlayer pl) (projs.map mirrorProjectile) =
      Option.map (Prod.map mirrorProjectile id) (scanThreats cfg pl projs) := by
  unfold scanThreats
  exact mirror_scan_fold cfg pl projs none

/-- The threat assessor commutes with the mirror whenever no projectile's
velocity is parallel to its offset from the player (the parallel case is
the perpendicular-choice tie, which the code breaks asymmetrically). -/
lemma mirror_dodge (cfg : Config) (pl : PlayerState)
    (projs : List ProjectileState)
    (hcross : ∀ p ∈ projs, projCross pl p ≠ 0) :
    dodgeProjectiles cfg (mirrorPlayer pl) (projs.map mirrorProjectile) =
      Option.map mirrorAction (dodgeProjectiles cfg pl projs) := by
  cases projs with
  | nil => rfl
  | cons r rest =>
    simp only [List.map, dodgeProjectiles]
    rw [show mirrorProjectile r :: List.map mirrorProjectile rest =
      List.map mirrorProjectile (r :: rest) from rfl]
    rw [mirror_scanThreats]
    rcases hscan : scanThreats cfg pl (r :: rest) with _ | ⟨md, best⟩
    · rfl
    · have hmem : md ∈ r :: rest :=
        (scanThreats_some_spec cfg pl _ md best hscan).1
      have hcr : projCross pl md ≠ 0 := hcross md hmem
      simp only [Option.map, Prod.map, id, mirrorProjectile_x, mirrorProjectile_y,
        mirrorProjectile_vx, mirrorProjectile_vy, mirrorPlayer_x, mirrorPlayer_y]
      by_cases hbig : 2 < best
      · rw [if_pos hbig, if_pos hbig]
      · rw [if_neg hbig, if_neg hbig]
        rw [show ((-md.vx) ^ 2 + md.vy ^ 2 : ℝ) = md.vx ^ 2 + md.vy ^ 2 from by ring]
        by_cases hsmall : Real.sqrt (md.vx ^ 2 + md.vy ^ 2) < 0.1
        · rw [if_pos hsmall, if_pos hsmall]
        · rw [if_neg hsmall, if_neg hsmall]
          set L := Real.sqrt (md.vx ^ 2 + md.vy ^ 2) with hLdef
          have hL : 0 < L := by
            have h1 : (0.1:ℝ) ≤ L := le_of_not_lt hsmall
            linarith
          set D : ℝ := -(md.vy / L) * (md.x - pl.x) + md.vx / L * (md.y - pl.y)
            with hD
          have hDval : D = projCross pl md / L := by
            rw [hD]
            unfold projCross
            field_simp
            ring
          have hDne : D ≠ 0 := by
            rw [hDval]
            exact div_ne_zero hcr (ne_of_gt hL)
          have hdot2 : md.vy / L * (md.x - pl.x) + -(md.vx / L) * (md.y - pl.y)
              = -D := by rw [hD]; ring
          have hdot1m : -(md.vy / L) * (-md.x - -pl.x) + -md.vx / L * (md.y - pl.y)
              = -D := by rw [hD]; ring
          have hdot2m : md.vy / L * (-md.x - -pl.x) + -(-md.vx / L) * (md.y - pl.y)
              = D := by rw [hD]; ring
          rw [hdot2, hdot1m, hdot2m]
          rcases lt_or_gt_of_ne hDne with hneg | hpos
          · rw [if_pos (by linarith : D < -D),
              if_neg (by linarith : ¬ (-D < D))]
            rw [show (-(-md.vx / L) : ℝ) = md.vx / L from by ring]
            have hq := quantize_neg_x (-(md.vy / L)) (md.vx / L)
            rw [neg_neg] at hq
            rw [hq]
            simp only [Option.map]
            rw [mirrorAction_make, neg_zero]
          · rw [if_neg (by linarith : ¬ (D < -D)),
              if_pos (by linarith : -D < D)]
            rw [show (-md.vx / L : ℝ) = -(md.vx / L) from by ring]
            rw [quantize_neg_x (md.vy / L) (-(md.vx / L))]
            simp only [Option.map]
            rw [mirrorAction_make, neg_zero]

/-- The close-enemies filter commutes with the mirror. -/
lemma mirror_closeEnemies (cfg : Config) (es : List EnemyState) :
    closeEnemies cfg (es.map mirrorEnemy) =
      (closeEnemies cfg es).map mirrorEnemy := by
  induction es with
  | nil => rfl
  | cons e rest ih =>
    simp only [List.map, closeEnemies, mirrorEnemy_distance]
    by_cases hc : e.distance < cfg.AVOID_DISTANCE ∧ e.distance > 0
    · rw [if_pos hc, if_pos hc, ih]
      rfl
    · rw [if_neg hc, if_neg hc]
      exact ih

/-- The repulsion accumulation negates its x-component under the mirror. -/
lemma mirror_avoidVector (pl : PlayerState) (es : List EnemyState) :
    avoidVector (mirrorPlayer pl) (es.map mirrorEnemy) =
      (-(avoidVector pl es).1, (avoidVector pl es).2) := by
  unfold avoidVector
  suffices h : ∀ (l : List EnemyState) (acc : ℝ × ℝ),
      (l.map mirrorEnemy).foldl
        (fun acc e =>
          (acc.1 + ((mirrorPlayer pl).x - e.x) * (1 / max e.distance 1),
           acc.2 + ((mirrorPlayer pl).y - e.y) * (1 / max e.distance 1)))
        (-acc.1, acc.2) =
      (-(l.foldl
          (fun acc e =>
            (acc.1 + (pl.x - e.x) * (1 / max e.distance 1),
             acc.2 + (pl.y - e.y) * (1 / max e.distance 1))) acc).1,
       (l.foldl
          (fun acc e =>
            (acc.1 + (pl.x - e.x) * (1 / max e.distance 1),
             acc.2 + (pl.y - e.y) * (1 / max e.distance 1))) acc).2) by
    have h0 := h es (0, 0)
    rw [show ((-(0:ℝ), (0:ℝ)) : ℝ × ℝ) = ((0:ℝ), (0:ℝ)) from by norm_num] at h0
    exact h0
  intro l
  induction l with
  | nil => intro acc; rfl
  | cons e rest ih =>
    intro acc
    simp only [List.map, List.foldl]
    rw [show ((-acc.1 + ((mirrorPlayer pl).x - (mirrorEnemy e).x) *
          (1 / max (mirrorEnemy e).distance 1),
        acc.2 + ((mirrorPlayer pl).y - (mirrorEnemy e).y) *
          (1 / max (mirrorEnemy e).distance 1)) : ℝ × ℝ) =
      (-(acc.1 + (pl.x - e.x) * (1 / max e.distance 1)),
        acc.2 + (pl.y - e.y) * (1 / max e.distance 1)) from by
        rw [Prod.mk.injEq]
        constructor
        · show -acc.1 + (-pl.x - -e.x) * (1 / max e.distance 1) = _
          ring
        · rfl]
    exact ih (acc.1 + (pl.x - e.x) * (1 / max e.distance 1),
      acc.2 + (pl.y - e.y) * (1 / max e.distance 1))

/-- The contact avoider commutes with the mirror. -/
lemma mirror_avoidEnemies (cfg : Config) (pl : PlayerState)
    (es : List EnemyState) :
    avoidEnemies cfg (mirrorPlayer pl) (es.map mirrorEnemy) =
      Option.map mirrorAction (avoidEnemies cfg pl es) := by
  cases es with
  | nil => rfl
  | cons e rest =>
    simp only [List.map, avoidEnemies]
    rw [show mirrorEnemy e :: List.map mirrorEnemy rest =
      List.map mirrorEnemy (e :: rest) from rfl]
    rw [mirror_closeEnemies]
    rcases hclose : closeEnemies cfg (e :: rest) with _ | ⟨c, cs⟩
    · rfl
    · simp only [List.map]
      rw [show mirrorEnemy c :: List.map mirrorEnemy cs =
        List.map mirrorEnemy (c :: cs) from rfl]
      rw [mirror_avoidVector]
      rw [show ((-(avoidVector pl (c :: cs)).1) ^ 2 +
          (avoidVector pl (c :: cs)).2 ^ 2 : ℝ) =
        (avoidVector pl (c :: cs)).1 ^ 2 + (avoidVector pl (c :: cs)).2 ^ 2
        from by ring]
      by_cases hlen : Real.sqrt ((avoidVector pl (c :: cs)).1 ^ 2 +
          (avoidVector pl (c :: cs)).2 ^ 2) < 0.1
      · rw [if_pos hlen, if_pos hlen]
        rfl
      · rw [if_neg hlen, if_neg hlen]
        rw [show (-(avoidVector pl (c :: cs)).1 /
            Real.sqrt ((avoidVector pl (c :: cs)).1 ^ 2 +
              (avoidVector pl (c :: cs)).2 ^ 2) : ℝ) =
          -((avoidVector pl (c :: cs)).1 /
            Real.sqrt ((avoidVector pl (c :: cs)).1 ^ 2 +
              (avoidVector pl (c :: cs)).2 ^ 2)) from by ring]
        rw [quantize_neg_x]
        simp only [Option.map]
        rw [mirrorAction_make, neg_zero]

/-- The target-selection loop commutes with the mirror. -/
lemma mirror_selectTarget (cfg : Config) (es : List EnemyState) :
    selectTarget cfg (es.map mirrorEnemy) =
      Option.map mirrorEnemy (selectTarget cfg es) := by
  induction es with
  | nil => rfl
  | cons e rest ih =>
    simp only [List.map, selectTarget, mirrorEnemy_distance]
    by_cases hq : e.distance ≤ cfg.ATTACK_RANGE
    · rw [if_pos hq, if_pos hq]
      rfl
    · rw [if_neg hq, if_neg hq]
      exact ih

/-- The aim vector negates its x-component under the mirror. -/
lemma mirror_aimVector (pl : PlayerState) (t : EnemyState) :
    aimVector (mirrorPlayer pl) (mirrorEnemy t) =
      (-(aimVector pl t).1, (aimVector pl t).2) := by
  unfold aimVector
  by_cases hg : 0.1 < |t.vx| ∨ 0.1 < |t.vy|
  · have hg2 : 0.1 < |(mirrorEnemy t).vx| ∨ 0.1 < |(mirrorEnemy t).vy| := by
      rw [mirrorEnemy_vx, mirrorEnemy_vy, abs_neg]
      exact hg
    rw [if_pos hg2, if_pos hg]
    rw [Prod.mk.injEq]
    constructor
    · show -t.x - -pl.x + -t.vx * (t.distance / 200) = _
      ring
    · rfl
  · have hg2 : ¬ (0.1 < |(mirrorEnemy t).vx| ∨ 0.1 < |(mirrorEnemy t).vy|) := by
      rw [mirrorEnemy_vx, mirrorEnemy_vy, abs_neg]
      exact hg
    rw [if_neg hg2, if_neg hg]
    rw [Prod.mk.injEq]
    constructor
    · show -t.x - -pl.x = -(t.x - pl.x)
      ring
    · rfl

/-- The first component of the mirrored aim vector. -/
lemma mirror_aim_fst (pl : PlayerState) (t : EnemyState) :
    (aimVector (mirrorPlayer pl) (mirrorEnemy t)).1 = -(aimVector pl t).1 := by
  rw [mirror_aimVector]

/-- The second component of the mirrored aim vector. -/
lemma mirror_aim_snd (pl : PlayerState) (t : EnemyState) :
    (aimVector (mirrorPlayer pl) (mirrorEnemy t)).2 = (aimVector pl t).2 := by
  rw [mirror_aimVector]

/-- The aimer commutes with the mirror. -/
lemma mirror_attackNearest (cfg : Config) (pl : PlayerState)
    (es : List EnemyState) :
    attackNearest cfg (mirrorPlayer pl) (es.map mirrorEnemy) =
      Option.map mirrorAction (attackNearest cfg pl es) := by
  cases es with
  | nil => rfl
  | cons e rest =>
    simp only [List.map, attackNearest]
    rw [show mirrorEnemy e :: List.map mirrorEnemy rest =
      List.map mirrorEnemy (e :: rest) from rfl]
    rw [mirror_selectTarget]
    rcases hsel : selectTarget cfg (e :: rest) with _ | t
    · rfl
    · simp only [Option.map]
      rw [mirror_aim_fst, mirror_aim_snd]
      rw [show ((-(aimVector pl t).1) ^ 2 + (aimVector pl t).2 ^ 2 : ℝ) =
        (aimVector pl t).1 ^ 2 + (aimVector pl t).2 ^ 2 from by ring]
      by_cases hlen : Real.sqrt ((aimVector pl t).1 ^ 2 +
          (aimVector pl t).2 ^ 2) < 0.1
      · rw [if_pos hlen, if_pos hlen]
      · rw [if_neg hlen, if_neg hlen]
        rw [show (-(aimVector pl t).1 /
            Real.sqrt ((aimVector pl t).1 ^ 2 + (aimVector pl t).2 ^ 2) : ℝ) =
          -((aimVector pl t).1 /
            Real.sqrt ((aimVector pl t).1 ^ 2 + (aimVector pl t).2 ^ 2))
          from by ring]
        rw [quantize_neg_x]
        simp only []
        rw [mirrorAction_make, neg_zero]

/-- The approach planner commutes with the mirror. -/
lemma mirror_approachEnemies (cfg : Config) (pl : PlayerState)
    (es : List EnemyState) :
    approachEnemies cfg (mirrorPlayer pl) (es.map mirrorEnemy) =
      Option.map mirrorAction (approachEnemies cfg pl es) := by
  cases es with
  | nil => rfl
  | cons e rest =>
    simp only [List.map, approachEnemies, mirrorEnemy_distance, mirrorEnemy_x,
      mirrorEnemy_y, mirrorPlayer_x, mirrorPlayer_y]
    by_cases hr : e.distance < cfg.ATTACK_RANGE ∨ cfg.APPROACH_RANGE < e.distance
    · rw [if_pos hr, if_pos hr]
      rfl
    · rw [if_neg hr, if_neg hr]
      rw [show ((-e.x - -pl.x) ^ 2 + (e.y - pl.y) ^ 2 : ℝ) =
        (e.x - pl.x) ^ 2 + (e.y - pl.y) ^ 2 from by ring]
      by_cases hlen : Real.sqrt ((e.x - pl.x) ^ 2 + (e.y - pl.y) ^ 2) < 0.1
      · rw [if_pos hlen, if_pos hlen]
        rfl
      · rw [if_neg hlen, if_neg hlen]
        rw [show ((-e.x - -pl.x) /
            Real.sqrt ((e.x - pl.x) ^ 2 + (e.y - pl.y) ^ 2) : ℝ) =
          -((e.x - pl.x) /
            Real.sqrt ((e.x - pl.x) ^ 2 + (e.y - pl.y) ^ 2)) from by ring]
        rw [quantize_neg_x]
        simp only [Option.map]
        rw [mirrorAction_make, neg_zero]

/-- C2 (amended): negating the x-coordinate and the x-velocity of the
player and of every enemy and projectile (the full mirror of the world)
yields a decision whose `move_x` and `shoot_x` are the negation of the
original decision's and whose `move_y` and `shoot_y` are unchanged,
provided no projectile's velocity is parallel to its offset from the
player (at such a tie the dodge's perpendicular choice is not
mirror-symmetric). -/
theorem C2_mirror_decideAction (cfg : Config) (s : GameState)
    (hcross : ∀ pl, s.player = some pl →
      ∀ p ∈ s.projectiles, projCross pl p ≠ 0) :
    decideAction cfg (some (mirrorState s)) =
      mirrorAction (decideAction cfg (some s)) := by
  have hply : (mirrorState s).player = s.player.map mirrorPlayer := rfl
  have hens : (mirrorState s).enemies = s.enemies.map mirrorEnemy := rfl
  have hprs : (mirrorState s).projectiles =
      s.projectiles.map mirrorProjectile := rfl
  simp only [decideAction, hply, hens, hprs]
  rcases hpl : s.player with _ | pl
  · simp only [Option.map]
    rw [mirrorAction_make, neg_zero]
  · simp only [Option.map]
    rw [mirror_dodge cfg pl s.projectiles (hcross pl hpl)]
    rw [mirror_attackNearest, mirror_avoidEnemies, mirror_approachEnemies]
    rcases hd : dodgeProjectiles cfg pl s.projectiles with _ | d
    · simp only [Option.map]
      rcases hav : avoidEnemies cfg pl s.enemies with _ | av
      · simp only [Option.map]
        rcases hap : approachEnemies cfg pl s.enemies with _ | ap
        · simp only [Option.map]
          rcases hatk : attackNearest cfg pl s.enemies with _ | a
          · simp only [Option.map]
            rw [mirrorAction_make, neg_zero]
          · simp only [Option.map]
        · simp only [Option.map]
          rcases hatk : attackNearest cfg pl s.enemies with _ | a
          · simp only [Option.map, mirrorAction_move_x, mirrorAction_move_y]
            rw [mirrorAction_make, neg_zero]
          · simp only [Option.map, mirrorAction_move_x, mirrorAction_move_y,
              mirrorAction_shoot_x, mirrorAction_shoot_y]
            rw [mirrorAction_make]
      · simp only [Option.map]
        rcases hatk : attackNearest cfg pl s.enemies with _ | a
        · simp only [Option.map, mirrorAction_move_x, mirrorAction_move_y]
          rw [mirrorAction_make, neg_zero]
        · simp only [Option.map, mirrorAction_move_x, mirrorAction_move_y,
            mirrorAction_shoot_x, mirrorAction_shoot_y]
          rw [mirrorAction_make]
    · simp only [Option.map]
      rcases hatk : attackNearest cfg pl s.enemies with _ | a
      · simp only [Option.map, mirrorAction_move_x, mirrorAction_move_y]
        rw [mirrorAction_make, neg_zero]
      · simp only [Option.map, mirrorAction_move_x, mirrorAction_move_y,
          mirrorAction_shoot_x, mirrorAction_shoot_y]
        rw [mirrorAction_make]

/-- A snapshot with one in-range enemy and no projectiles. -/
def mirrorScenario : GameState :=
  { player := some pl0, enemies := [eLead], projectiles := [] }

/-- C2 (witness): the full-mirror symmetry applied to a concrete
snapshot; the parallel-velocity hypothesis is discharged because the
snapshot has no projectiles. -/
theorem C2_mirror_decideAction_witness :
    (∀ pl, mirrorScenario.player = some pl →
      ∀ p ∈ mirrorScenario.projectiles, projCross pl p ≠ 0) ∧
    decideAction defaultConfig (some (mirrorState mirrorScenario)) =
      mirrorAction (decideAction defaultConfig (some mirrorScenario)) := by
  have h : ∀ pl, mirrorScenario.player = some pl →
      ∀ p ∈ mirrorScenario.projectiles, projCross pl p ≠ 0 := by
    intro pl hpl p hp
    simp [mirrorScenario] at hp
  exact ⟨h, C2_mirror_decideAction defaultConfig mirrorScenario h⟩

end IsaacAgent
